import Mathlib

/-!
Shallow embedding of the kernel smart-account construction module
(`createKernelAccount` and its helpers).  The ABI encoding, keccak hashing
and hex-conversion primitives consumed by the code are external collaborators
(viem); they are embedded as free constructors of a symbolic byte-string
algebra `Hx`, so a byte string records exactly which primitives the code
applied and with which arguments, and equality of encodings is structural.
Asynchronous RPC round-trips (the `eip712Domain()` view call, the sender
address derivation, the bytecode lookup) are modelled by passing their
decoded results as explicit inputs.  JavaScript exceptions are modelled with
`Except`.
-/

namespace Kernel

/-- Symbolic algebra of hex byte strings (`Hex` values in the source).  Each
constructor records one external encoding primitive applied by the code:
`encodeFunctionData` carries the name of the ABI constant and of the function,
`tuple` is a struct argument, `arr` an array argument, `num` a JavaScript
number and `uint` a bigint. -/
inductive Hx : Type where
  | lit (s : String)
  | addr (a : String)
  | uint (n : Nat)
  | num (n : Nat)
  | tuple (fields : List Hx)
  | arr (elems : List Hx)
  | encodeFunctionData (abi fn : String) (args : List Hx)
  | encodeAbiParameters (types : List String) (values : List Hx)
  | concatHex (parts : List Hx)
  | keccak256 (b : Hx)
  | stringToHex (s : String)

/-- Errors thrown by the module: generic `new Error(message)` plus the
distinguished `SignTransactionNotSupportedBySmartAccount` class imported from
permissionless. -/
inductive JsError : Type where
  | error (message : String)
  | signTransactionNotSupportedBySmartAccount
  deriving DecidableEq

/-- One entry of `KernelEncodeCallDataArgs`: `{to, value, data, callType}`.
The `callType` field is a runtime string (`"call" | "delegatecall"` in the
TypeScript type, but compared as a string at runtime), absent = `none`. -/
structure CallDescriptor : Type where
  «to» : String
  value : Nat
  data : Hx
  callType : Option String

/-- Argument of `encodeCallData`: a single descriptor or an ordered batch. -/
inductive KernelEncodeCallDataArgs : Type where
  | single (tx : CallDescriptor)
  | batch (txs : List CallDescriptor)

/-- JavaScript `String.prototype.toLowerCase` restricted to the basic-latin
range, as used on hex addresses: lower every character. -/
def toLowerCase (s : String) : String :=
  String.mk (s.data.map Char.toLower)

/-- JavaScript `Array.prototype.map` with a callback that may throw: the
callback runs left to right and the first exception aborts the whole map. -/
def jsArrayMap (f : α → Except JsError β) : List α → Except JsError (List β)
  | [] => Except.ok []
  | x :: xs =>
    match f x with
    | Except.error e => Except.error e
    | Except.ok y =>
      match jsArrayMap f xs with
      | Except.error e => Except.error e
      | Except.ok ys => Except.ok (y :: ys)

/-- The truthiness test `!tx.callType || tx.callType === "call"` guarding the
default/`call` branch of `encodeCallData`. -/
def isCallOrDefault (ct : Option String) : Bool :=
  match ct with
  | none => true
  | some s => s.isEmpty || s == "call"

/-- The callback passed to `tx.map` in the batch branch of `encodeCallData`:
throws on a `delegatecall` entry, otherwise projects `{to, value, data}`. -/
def batchEntry (txn : CallDescriptor) : Except JsError Hx :=
  if txn.callType == some "delegatecall" then
    Except.error (JsError.error "Cannot batch delegatecall")
  else
    Except.ok (Hx.tuple [Hx.addr txn.«to», Hx.uint txn.value, txn.data])

/-- The `encodeCallData` closure of the constructed account (source lines
482-528).  `accountAddress` and the active validator's
`shouldDelegateViaFallback()` answer are the captured context. -/
def encodeCallData (accountAddress : String) (shouldDelegateViaFallback : Bool) :
    KernelEncodeCallDataArgs → Except JsError Hx
  | KernelEncodeCallDataArgs.batch txs =>
    (jsArrayMap batchEntry txs).map (fun encoded =>
      Hx.encodeFunctionData "KernelExecuteAbi" "executeBatch" [Hx.arr encoded])
  | KernelEncodeCallDataArgs.single tx =>
    if isCallOrDefault tx.callType then
      if toLowerCase tx.«to» == accountAddress && shouldDelegateViaFallback then
        Except.ok tx.data
      else
        Except.ok (Hx.encodeFunctionData "KernelExecuteAbi" "execute"
          [Hx.addr tx.«to», Hx.uint tx.value, tx.data, Hx.num 0])
    else if tx.callType == some "delegatecall" then
      Except.ok (Hx.encodeFunctionData "KernelExecuteAbi" "executeDelegateCall"
        [Hx.addr tx.«to», tx.data])
    else
      Except.error (JsError.error "Invalid call type")

/-- A validator/plugin capability as consumed by this module: its contract
address, its signer's address, the awaited result of `getEnableData()` and
the `shouldDelegateViaFallback()` answer. -/
structure KernelPlugin : Type where
  address : String
  signerAddress : String
  enableData : Hx
  shouldDelegateViaFallback : Bool

/-- The construction options of `createKernelAccount` that the init-code and
address paths consume (defaults already substituted). -/
structure KernelAccountOptions : Type where
  defaultValidator : Option KernelPlugin
  index : Nat
  factoryAddress : String
  accountLogicAddress : String
  deployedAccountAddress : Option String
  initCode : Option Hx

/-- `getAccountInitCode` (source lines 156-189): factory address concatenated
with the `createAccount(accountLogicAddress, initialize(validatorAddress,
enableData), index)` call encoding.  `enableData` is the already-awaited
result of the validator's `getEnableData()`. -/
def getAccountInitCode (owner : String) (index : Nat)
    (factoryAddress accountLogicAddress validatorAddress : String)
    (enableData : Hx) : Except JsError Hx :=
  if owner.isEmpty then
    Except.error (JsError.error "Owner account not found")
  else
    Except.ok (Hx.concatHex [Hx.lit factoryAddress,
      Hx.encodeFunctionData "createAccountAbi" "createAccount"
        [Hx.addr accountLogicAddress,
         Hx.encodeFunctionData "KernelInitAbi" "initialize"
           [Hx.addr validatorAddress, enableData],
         Hx.uint index]])

/-- The `generateInitCode` closure (source lines 334-346): explicit override
verbatim, else the factory call built from the default validator, else a
configuration error. -/
def generateInitCode (opts : KernelAccountOptions) : Except JsError Hx :=
  match opts.initCode with
  | some ic => Except.ok ic
  | none =>
    match opts.defaultValidator with
    | some dv =>
      getAccountInitCode dv.signerAddress opts.index opts.factoryAddress
        opts.accountLogicAddress dv.address dv.enableData
    | none => Except.error (JsError.error "No init code or default validator provided")

/-- Address resolution in `createKernelAccount` (source lines 349-358):
`deployedAccountAddress ?? getAccountAddress(...)` followed by the falsiness
check.  `getSenderAddress` is the entry-point simulation oracle (a chain
round-trip).  The boolean of the result records whether the init-code
provider was invoked, so that the fast path's frame effect is observable in
the model. -/
def resolveAccountAddress (opts : KernelAccountOptions)
    (getSenderAddress : Hx → String → String) (entryPoint : String) :
    Except JsError (String × Bool) :=
  match opts.deployedAccountAddress with
  | some a =>
    if a.isEmpty then Except.error (JsError.error "Account address not found")
    else Except.ok (a, false)
  | none =>
    match generateInitCode opts with
    | Except.error e => Except.error e
    | Except.ok initCode =>
      let a := getSenderAddress initCode entryPoint
      if a.isEmpty then Except.error (JsError.error "Account address not found")
      else Except.ok (a, true)

/-- The `getInitCode` method of the handle (source lines 448-456):
`contractCode` is the result of the bytecode lookup at the account address
(`undefined` = `none`); `(contractCode?.length ?? 0) > 2` detects a deployed
account. -/
def getInitCode (opts : KernelAccountOptions) (contractCode : Option String) :
    Except JsError Hx :=
  if (match contractCode with | some s => s.length | none => 0) > 2 then
    Except.ok (Hx.lit "0x")
  else
    generateInitCode opts

/-- The tuple decoded from the on-chain `eip712Domain()` response. -/
structure Eip712Domain : Type where
  fields : String
  name : String
  version : String
  chainId : Nat
  verifyingContract : String
  salt : String
  extensions : List Nat
  deriving DecidableEq

/-- The domain separator computed inline by `signHashedMessage` (source lines
256-277): keccak of the ABI encoding of the EIP-712 domain typehash, the
hashed `name` and `version` strings, the `chainId`, and the account's own
address in the verifying-contract slot. -/
def domainSeparator (decoded : Eip712Domain) (accountAddress : String) : Hx :=
  Hx.keccak256 (Hx.encodeAbiParameters
    ["bytes32", "bytes32", "bytes32", "uint256", "address"]
    [Hx.keccak256 (Hx.stringToHex
        "EIP712Domain(string name,string version,uint256 chainId,address verifyingContract)"),
     Hx.keccak256 (Hx.stringToHex decoded.name),
     Hx.keccak256 (Hx.stringToHex decoded.version),
     Hx.uint decoded.chainId,
     Hx.addr accountAddress])

/-- The request handed to the underlying signer: which signer, and the raw
digest it is asked to sign. -/
structure SignerInvocation : Type where
  signerAddress : String
  raw : Hx

/-- `signHashedMessage` (source lines 219-287) after the `eip712Domain()`
round-trip: `decoded` is the response decoded from the `eth_call` against the
account logic address.  Produces the `0x1901`-prefixed digest and hands it
raw to the current validator's signer. -/
def signHashedMessage (currentValidatorSigner accountAddress : String)
    (decoded : Eip712Domain) (messageHash : Hx) : SignerInvocation :=
  let sep := domainSeparator decoded accountAddress
  let digest := Hx.keccak256 (Hx.concatHex [Hx.lit "0x1901", sep, messageHash])
  SignerInvocation.mk currentValidatorSigner digest

/-- Argument of the handle's `signMessage`: a string message or raw bytes. -/
inductive SignableMessage : Type where
  | str (s : String)
  | raw (data : Hx)

/-- The `signMessage` closure of the constructed account (source lines
363-376): hash a string message by UTF-8 conversion then keccak, raw bytes
by keccak directly, and delegate to `signHashedMessage`. -/
def accountSignMessage (currentValidatorSigner accountAddress : String)
    (decoded : Eip712Domain) (message : SignableMessage) : SignerInvocation :=
  let messageHash := match message with
    | SignableMessage.str s => Hx.keccak256 (Hx.stringToHex s)
    | SignableMessage.raw r => Hx.keccak256 r
  signHashedMessage currentValidatorSigner accountAddress decoded messageHash

/-- The `signTransaction` closure of the constructed account (source lines
377-379): unconditionally throws the distinguished error. -/
def signTransaction {α β : Type} (_t : α) (_s : β) : Except JsError Hx :=
  Except.error JsError.signTransactionNotSupportedBySmartAccount

/-! Helper lemmas. -/

theorem toNat_ofNat_valid (n : Nat) (h : n.isValidChar) : (Char.ofNat n).toNat = n := by
  rw [Char.ofNat, dif_pos h]
  rfl

theorem char_toLower_idem (c : Char) : c.toLower.toLower = c.toLower := by
  show Char.toLower (Char.toLower c) = Char.toLower c
  by_cases h : c.toNat ≥ 65 ∧ c.toNat ≤ 90
  · have h1 : Char.toLower c = Char.ofNat (c.toNat + 32) := by
      rw [Char.toLower, if_pos h]
    have hv : (c.toNat + 32).isValidChar := Or.inl (by omega)
    have h2 : (Char.toLower c).toNat = c.toNat + 32 := by
      rw [h1, toNat_ofNat_valid _ hv]
    rw [Char.toLower, if_neg (by omega)]
  · have h1 : Char.toLower c = c := by
      rw [Char.toLower, if_neg h]
    rw [h1]
    exact h1

theorem map_toLower_idem (l : List Char) :
    (l.map Char.toLower).map Char.toLower = l.map Char.toLower := by
  induction l with
  | nil => rfl
  | cons c cs ih => simp [char_toLower_idem, ih]

theorem toLowerCase_idem (s : String) :
    toLowerCase (toLowerCase s) = toLowerCase s := by
  simp only [toLowerCase]
  exact congrArg String.mk (map_toLower_idem s.data)

theorem jsArrayMap_ok_of_forall (txs : List CallDescriptor)
    (h : ∀ txn ∈ txs, txn.callType ≠ some "delegatecall") :
    jsArrayMap batchEntry txs = Except.ok (txs.map (fun txn =>
      Hx.tuple [Hx.addr txn.«to», Hx.uint txn.value, txn.data])) := by
  induction txs with
  | nil => rfl
  | cons t ts ih =>
    have hb : (t.callType == some "delegatecall") = false :=
      beq_eq_false_iff_ne.mpr (h t (List.mem_cons_self t ts))
    have hrest := ih (fun x hx => h x (List.mem_cons_of_mem _ hx))
    simp [jsArrayMap, batchEntry, hb, hrest]

theorem jsArrayMap_error_of_mem (txs : List CallDescriptor)
    (h : ∃ txn ∈ txs, txn.callType = some "delegatecall") :
    jsArrayMap batchEntry txs = Except.error (JsError.error "Cannot batch delegatecall") := by
  induction txs with
  | nil =>
    rcases h with ⟨t, ht, _⟩
    cases ht
  | cons t ts ih =>
    rcases h with ⟨x, hx, hxd⟩
    rcases List.mem_cons.mp hx with hhead | hmem
    · have hb : (t.callType == some "delegatecall") = true := by
        rw [hhead] at hxd
        simp [hxd]
      simp [jsArrayMap, batchEntry, hb]
    · by_cases hd : t.callType = some "delegatecall"
      · simp [jsArrayMap, batchEntry, hd]
      · have hb : (t.callType == some "delegatecall") = false :=
          beq_eq_false_iff_ne.mpr hd
        have hrest := ih ⟨x, hmem, hxd⟩
        simp [jsArrayMap, batchEntry, hb, hrest]

/-! Claim theorems. -/

/-- C7: for every constructed handle and all arguments, `signTransaction`
always fails with the distinguished not-supported-by-smart-account error and
never produces a signature. -/
theorem signTransaction_always_unsupported :
    ∀ (α β : Type) (x : α) (y : β),
      signTransaction x y = Except.error JsError.signTransactionNotSupportedBySmartAccount
      ∧ ∀ h : Hx, signTransaction x y ≠ Except.ok h := by
  intro α β x y
  exact ⟨rfl, fun h hc => Except.noConfusion hc⟩

/-- C9: a single `delegatecall` descriptor is encoded as
`executeDelegateCall(to, data)`, and the encoding is independent of the
descriptor's `value` field: two descriptors differing only in `value` encode
to identical bytes. -/
theorem encodeCallData_single_delegatecall (a : String) (sdf : Bool)
    (t : String) (v1 v2 : Nat) (d : Hx) :
    encodeCallData a sdf (KernelEncodeCallDataArgs.single ⟨t, v1, d, some "delegatecall"⟩) =
      Except.ok (Hx.encodeFunctionData "KernelExecuteAbi" "executeDelegateCall" [Hx.addr t, d])
    ∧ encodeCallData a sdf (KernelEncodeCallDataArgs.single ⟨t, v1, d, some "delegatecall"⟩) =
      encodeCallData a sdf (KernelEncodeCallDataArgs.single ⟨t, v2, d, some "delegatecall"⟩) :=
  ⟨rfl, rfl⟩

/-- C6: the handle's `signMessage` hashes a string message by keccak over its
UTF-8 bytes and raw bytes by keccak directly, wraps the hash into the digest
`keccak256(0x1901 ++ domainSeparator ++ messageHash)`, and invokes the
current validator's underlying signer with exactly that digest. -/
theorem accountSignMessage_digest (signer acc : String) (d : Eip712Domain)
    (s : String) (r : Hx) :
    accountSignMessage signer acc d (SignableMessage.str s) =
      SignerInvocation.mk signer (Hx.keccak256 (Hx.concatHex
        [Hx.lit "0x1901", domainSeparator d acc, Hx.keccak256 (Hx.stringToHex s)]))
    ∧ accountSignMessage signer acc d (SignableMessage.raw r) =
      SignerInvocation.mk signer (Hx.keccak256 (Hx.concatHex
        [Hx.lit "0x1901", domainSeparator d acc, Hx.keccak256 r])) :=
  ⟨rfl, rfl⟩

/-- C2: the domain separator used by `signHashedMessage` is keccak of the ABI
encoding of the domain typehash, hashed name, hashed version, chainId and the
account's own address; consequently any two decoded `eip712Domain()`
responses agreeing on name, version and chainId yield the same separator,
whatever their `verifyingContract`, `salt`, `extensions` or `fields`. -/
theorem domainSeparator_spec (d : Eip712Domain) (a : String) :
    domainSeparator d a = Hx.keccak256 (Hx.encodeAbiParameters
      ["bytes32", "bytes32", "bytes32", "uint256", "address"]
      [Hx.keccak256 (Hx.stringToHex
          "EIP712Domain(string name,string version,uint256 chainId,address verifyingContract)"),
       Hx.keccak256 (Hx.stringToHex d.name),
       Hx.keccak256 (Hx.stringToHex d.version),
       Hx.uint d.chainId,
       Hx.addr a])
    ∧ (∀ signer mh, signHashedMessage signer a d mh = SignerInvocation.mk signer
        (Hx.keccak256 (Hx.concatHex [Hx.lit "0x1901", domainSeparator d a, mh])))
    ∧ ∀ d2 : Eip712Domain, d.name = d2.name → d.version = d2.version →
        d.chainId = d2.chainId → domainSeparator d a = domainSeparator d2 a := by
  refine ⟨rfl, fun signer mh => rfl, ?_⟩
  intro d2 h1 h2 h3
  simp [domainSeparator, h1, h2, h3]

/-- C2 witness: two concrete domain responses agreeing on name, version and
chainId but differing in fields, verifyingContract, salt and extensions give
the same separator. -/
theorem domainSeparator_spec_witness :
    (Eip712Domain.mk "0x0f" "Kernel" "0.2.3" 1 "0x1111" "0xs1" [1]).name =
      (Eip712Domain.mk "0x00" "Kernel" "0.2.3" 1 "0x2222" "0xs2" []).name
    ∧ domainSeparator (Eip712Domain.mk "0x0f" "Kernel" "0.2.3" 1 "0x1111" "0xs1" [1]) "0xacc" =
      domainSeparator (Eip712Domain.mk "0x00" "Kernel" "0.2.3" 1 "0x2222" "0xs2" []) "0xacc" :=
  ⟨rfl, (domainSeparator_spec (Eip712Domain.mk "0x0f" "Kernel" "0.2.3" 1 "0x1111" "0xs1" [1])
    "0xacc").2.2 (Eip712Domain.mk "0x00" "Kernel" "0.2.3" 1 "0x2222" "0xs2" []) rfl rfl rfl⟩

/-- C1: the fallback short-circuit compares `tx.to.toLowerCase()` against the
raw `accountAddress` string, so a checksummed (mixed-case) account address is
never matched: even a byte-identical mixed-case target is encoded through the
`execute` wrapper instead of being returned raw, although
`shouldDelegateViaFallback()` is true. -/
theorem encodeCallData_fallback_misses_checksummed_self_call :
    encodeCallData "0xAb" true
      (KernelEncodeCallDataArgs.single ⟨"0xAb", 0, Hx.lit "0x1234", none⟩) =
      Except.ok (Hx.encodeFunctionData "KernelExecuteAbi" "execute"
        [Hx.addr "0xAb", Hx.uint 0, Hx.lit "0x1234", Hx.num 0])
    ∧ encodeCallData "0xAb" true
      (KernelEncodeCallDataArgs.single ⟨"0xAb", 0, Hx.lit "0x1234", none⟩) ≠
      Except.ok (Hx.lit "0x1234") := by
  have h1 : encodeCallData "0xAb" true
      (KernelEncodeCallDataArgs.single ⟨"0xAb", 0, Hx.lit "0x1234", none⟩) =
      Except.ok (Hx.encodeFunctionData "KernelExecuteAbi" "execute"
        [Hx.addr "0xAb", Hx.uint 0, Hx.lit "0x1234", Hx.num 0]) := by
    rfl
  refine ⟨h1, ?_⟩
  rw [h1]
  intro hc
  injection hc with h2
  exact Hx.noConfusion h2

/-- C3: a batch containing a `delegatecall` entry makes `encodeCallData` fail
with "Cannot batch delegatecall" before producing any output; an all-`call`
batch is encoded as `executeBatch` over the `{to, value, data}` projections
in input order. -/
theorem encodeCallData_batch_spec (a : String) (sdf : Bool)
    (txs : List CallDescriptor) :
    ((∃ txn ∈ txs, txn.callType = some "delegatecall") →
      encodeCallData a sdf (KernelEncodeCallDataArgs.batch txs) =
        Except.error (JsError.error "Cannot batch delegatecall"))
    ∧ ((∀ txn ∈ txs, txn.callType ≠ some "delegatecall") →
      encodeCallData a sdf (KernelEncodeCallDataArgs.batch txs) =
        Except.ok (Hx.encodeFunctionData "KernelExecuteAbi" "executeBatch"
          [Hx.arr (txs.map (fun txn =>
            Hx.tuple [Hx.addr txn.«to», Hx.uint txn.value, txn.data]))])) := by
  constructor
  · intro h
    simp [encodeCallData, jsArrayMap_error_of_mem txs h, Except.map]
  · intro h
    simp [encodeCallData, jsArrayMap_ok_of_forall txs h, Except.map]

/-- C3 witness: a concrete mixed batch fails while a concrete all-`call`
batch encodes in order. -/
theorem encodeCallData_batch_spec_witness :
    encodeCallData "0xacc" true (KernelEncodeCallDataArgs.batch
      [⟨"0xb", 2, Hx.lit "0xe", some "call"⟩, ⟨"0xa", 1, Hx.lit "0xd", some "delegatecall"⟩]) =
      Except.error (JsError.error "Cannot batch delegatecall")
    ∧ encodeCallData "0xacc" true (KernelEncodeCallDataArgs.batch
      [⟨"0xb", 2, Hx.lit "0xe", some "call"⟩, ⟨"0xc", 3, Hx.lit "0xf", none⟩]) =
      Except.ok (Hx.encodeFunctionData "KernelExecuteAbi" "executeBatch"
        [Hx.arr [Hx.tuple [Hx.addr "0xb", Hx.uint 2, Hx.lit "0xe"],
                 Hx.tuple [Hx.addr "0xc", Hx.uint 3, Hx.lit "0xf"]]]) := by
  constructor
  · exact (encodeCallData_batch_spec "0xacc" true _).1
      ⟨⟨"0xa", 1, Hx.lit "0xd", some "delegatecall"⟩, by simp, rfl⟩
  · exact (encodeCallData_batch_spec "0xacc" true _).2 (by
      intro txn h
      rcases List.mem_cons.mp h with rfl | h2
      · simp
      · rcases List.mem_cons.mp h2 with rfl | h3
        · simp
        · cases h3)

/-- C4: a single descriptor with `callType` unset or `"call"` whose target is
not the account's own address (case-insensitively) is encoded exactly as
`execute(to, value, data, 0)`. -/
theorem encodeCallData_single_call_execute (a : String) (sdf : Bool)
    (tx : CallDescriptor)
    (hct : tx.callType = none ∨ tx.callType = some "call")
    (hto : toLowerCase tx.«to» ≠ toLowerCase a) :
    encodeCallData a sdf (KernelEncodeCallDataArgs.single tx) =
      Except.ok (Hx.encodeFunctionData "KernelExecuteAbi" "execute"
        [Hx.addr tx.«to», Hx.uint tx.value, tx.data, Hx.num 0]) := by
  have h1 : isCallOrDefault tx.callType = true := by
    rcases hct with h | h <;> simp [isCallOrDefault, h]
  have h2 : (toLowerCase tx.«to» == a) = false := by
    apply beq_eq_false_iff_ne.mpr
    intro he
    have hc := congrArg toLowerCase he
    rw [toLowerCase_idem] at hc
    exact hto hc
  simp [encodeCallData, h1, h2]

/-- C4 witness: a concrete non-self single call is wrapped into `execute`. -/
theorem encodeCallData_single_call_execute_witness :
    ((some "call" : Option String) = none ∨ (some "call" : Option String) = some "call")
    ∧ toLowerCase "0xOther" ≠ toLowerCase "0xAccount"
    ∧ encodeCallData "0xAccount" true
        (KernelEncodeCallDataArgs.single ⟨"0xOther", 7, Hx.lit "0xdd", some "call"⟩) =
        Except.ok (Hx.encodeFunctionData "KernelExecuteAbi" "execute"
          [Hx.addr "0xOther", Hx.uint 7, Hx.lit "0xdd", Hx.num 0]) :=
  ⟨Or.inr rfl, by decide,
    encodeCallData_single_call_execute "0xAccount" true
      ⟨"0xOther", 7, Hx.lit "0xdd", some "call"⟩ (Or.inr rfl) (by decide)⟩

/-- C5: `generateInitCode` returns the explicit override verbatim; with no
override and a default validator it returns the factory address concatenated
with the `createAccount(accountLogicAddress, initialize(validatorAddress,
enableData), index)` encoding; with neither it fails with the configuration
error; and its output is a deterministic function of the construction
inputs. -/
theorem generateInitCode_spec (opts : KernelAccountOptions) :
    (∀ ic, opts.initCode = some ic → generateInitCode opts = Except.ok ic)
    ∧ (∀ dv, opts.initCode = none → opts.defaultValidator = some dv →
        dv.signerAddress ≠ "" →
        generateInitCode opts = Except.ok (Hx.concatHex [Hx.lit opts.factoryAddress,
          Hx.encodeFunctionData "createAccountAbi" "createAccount"
            [Hx.addr opts.accountLogicAddress,
             Hx.encodeFunctionData "KernelInitAbi" "initialize"
               [Hx.addr dv.address, dv.enableData],
             Hx.uint opts.index]]))
    ∧ (opts.initCode = none → opts.defaultValidator = none →
        generateInitCode opts =
          Except.error (JsError.error "No init code or default validator provided"))
    ∧ (∀ opts2 : KernelAccountOptions, opts.initCode = opts2.initCode →
        opts.defaultValidator = opts2.defaultValidator → opts.index = opts2.index →
        opts.factoryAddress = opts2.factoryAddress →
        opts.accountLogicAddress = opts2.accountLogicAddress →
        generateInitCode opts = generateInitCode opts2) := by
  refine ⟨?_, ?_, ?_, ?_⟩
  · intro ic h
    simp [generateInitCode, h]
  · intro dv h1 h2 h3
    have hs : dv.signerAddress.isEmpty = false := by
      rcases hb : dv.signerAddress.isEmpty with _ | _
      · rfl
      · exact absurd ((String.isEmpty_iff dv.signerAddress).mp hb) h3
    simp [generateInitCode, h1, h2, getAccountInitCode, hs]
  · intro h1 h2
    simp [generateInitCode, h1, h2]
  · intro opts2 h1 h2 h3 h4 h5
    simp [generateInitCode, h1, h2, h3, h4, h5]

/-- C5 witness: concrete instances of the three branches and of
determinism. -/
theorem generateInitCode_spec_witness :
    generateInitCode (KernelAccountOptions.mk none 0 "0xf" "0xl" none
      (some (Hx.lit "0xexplicit"))) = Except.ok (Hx.lit "0xexplicit")
    ∧ generateInitCode (KernelAccountOptions.mk
        (some (KernelPlugin.mk "0xv" "0xo" (Hx.lit "0xe") false)) 5 "0xf" "0xl" none none) =
      Except.ok (Hx.concatHex [Hx.lit "0xf",
        Hx.encodeFunctionData "createAccountAbi" "createAccount"
          [Hx.addr "0xl",
           Hx.encodeFunctionData "KernelInitAbi" "initialize" [Hx.addr "0xv", Hx.lit "0xe"],
           Hx.uint 5]])
    ∧ generateInitCode (KernelAccountOptions.mk none 3 "0xf" "0xl" none none) =
      Except.error (JsError.error "No init code or default validator provided")
    ∧ generateInitCode (KernelAccountOptions.mk
        (some (KernelPlugin.mk "0xv" "0xo" (Hx.lit "0xe") false)) 5 "0xf" "0xl" none none) =
      generateInitCode (KernelAccountOptions.mk
        (some (KernelPlugin.mk "0xv" "0xo" (Hx.lit "0xe") false)) 5 "0xf" "0xl"
        (some "0xdeployed") none) :=
  ⟨(generateInitCode_spec _).1 (Hx.lit "0xexplicit") rfl,
   (generateInitCode_spec _).2.1 (KernelPlugin.mk "0xv" "0xo" (Hx.lit "0xe") false)
     rfl rfl (by decide),
   (generateInitCode_spec _).2.2.1 rfl rfl,
   (generateInitCode_spec _).2.2.2 _ rfl rfl rfl rfl rfl⟩

/-- C8: with a `deployedAccountAddress` override the resolved address is the
override, the init-code provider is never invoked (the boolean of the model
is false), and the result does not depend on the sender-derivation oracle or
the entry point, i.e. no chain round-trip influences it. -/
theorem resolveAccountAddress_override_fast_path (opts : KernelAccountOptions)
    (oracle oracle2 : Hx → String → String) (ep ep2 : String) (a : String)
    (h : opts.deployedAccountAddress = some a) (ha : a ≠ "") :
    resolveAccountAddress opts oracle ep = Except.ok (a, false)
    ∧ resolveAccountAddress opts oracle ep = resolveAccountAddress opts oracle2 ep2 := by
  have he : a.isEmpty = false := by
    rcases hb : a.isEmpty with _ | _
    · rfl
    · exact absurd ((String.isEmpty_iff a).mp hb) ha
  constructor
  · simp [resolveAccountAddress, h, he]
  · simp [resolveAccountAddress, h, he]

/-- C8 witness: a concrete override is returned as-is with the provider
uninvoked, for two different oracles and entry points. -/
theorem resolveAccountAddress_override_fast_path_witness :
    resolveAccountAddress (KernelAccountOptions.mk none 0 "0xf" "0xl"
        (some "0xDeployed") none) (fun _ _ => "0x1") "0xep" =
      Except.ok ("0xDeployed", false)
    ∧ resolveAccountAddress (KernelAccountOptions.mk none 0 "0xf" "0xl"
        (some "0xDeployed") none) (fun _ _ => "0x1") "0xep" =
      resolveAccountAddress (KernelAccountOptions.mk none 0 "0xf" "0xl"
        (some "0xDeployed") none) (fun _ _ => "0x2") "0xep2" :=
  resolveAccountAddress_override_fast_path
    (KernelAccountOptions.mk none 0 "0xf" "0xl" (some "0xDeployed") none)
    (fun _ _ => "0x1") (fun _ _ => "0x2") "0xep" "0xep2" "0xDeployed" rfl (by decide)

/-- C10 counterexample: with an explicit `initCode` override of `0x` and an
undeployed account (bytecode lookup `undefined`), `getInitCode` returns `0x`
although the lookup did not yield a string longer than the two-character
prefix — the claimed "exactly when" fails in this direction. -/
theorem getInitCode_exactly_when_fails :
    ¬ (getInitCode (KernelAccountOptions.mk none 0 "0xf" "0xl" none
          (some (Hx.lit "0x"))) none = Except.ok (Hx.lit "0x")
        ↔ ∃ s : String, (none : Option String) = some s ∧ s.length > 2) := by
  intro h
  rcases h.mp rfl with ⟨s, hs, _⟩
  exact Option.noConfusion hs

/-- C10 (amended): `getInitCode` returns `0x` whenever the bytecode lookup
yields a string longer than two characters; when the lookup yields
`undefined` or exactly `0x` it returns the same bytes as `generateInitCode()`;
and a `0x` result implies either such a long lookup or that
`generateInitCode()` itself produced `0x`, which only happens under an
explicit `0x` initCode override. -/
theorem getInitCode_spec (opts : KernelAccountOptions) (code : Option String) :
    (∀ s, code = some s → s.length > 2 → getInitCode opts code = Except.ok (Hx.lit "0x"))
    ∧ (code = none ∨ code = some "0x" → getInitCode opts code = generateInitCode opts)
    ∧ (getInitCode opts code = Except.ok (Hx.lit "0x") →
        (∃ s, code = some s ∧ s.length > 2) ∨ generateInitCode opts = Except.ok (Hx.lit "0x"))
    ∧ (generateInitCode opts = Except.ok (Hx.lit "0x") →
        opts.initCode = some (Hx.lit "0x")) := by
  refine ⟨?_, ?_, ?_, ?_⟩
  · intro s h hl
    simp [getInitCode, h, hl]
  · intro h
    rcases h with h | h
    · simp [getInitCode, h]
    · have hl : ¬ ((match (some "0x" : Option String) with
        | some s => s.length | none => 0) > 2) := by decide
      rw [h]
      simp only [getInitCode]
      rw [if_neg hl]
  · intro h
    by_cases hc : (match code with | some s => s.length | none => 0) > 2
    · left
      cases code with
      | none => simp at hc
      | some s => exact ⟨s, rfl, hc⟩
    · right
      simp only [getInitCode] at h
      rw [if_neg hc] at h
      exact h
  · intro h
    rcases hic : opts.initCode with _ | ic
    · rcases hdv : opts.defaultValidator with _ | dv
      · simp only [generateInitCode, hic, hdv] at h
        exact Except.noConfusion h
      · simp only [generateInitCode, hic, hdv, getAccountInitCode] at h
        by_cases hs : dv.signerAddress.isEmpty
        · rw [if_pos hs] at h
          exact Except.noConfusion h
        · rw [if_neg hs] at h
          injection h with h2
          exact Hx.noConfusion h2
    · simp only [generateInitCode, hic] at h
      injection h with h2
      exact congrArg some h2

/-- C10 witness: a deployed account (long bytecode) yields `0x`; an
undeployed account yields the regenerated init code. -/
theorem getInitCode_spec_witness :
    getInitCode (KernelAccountOptions.mk
        (some (KernelPlugin.mk "0xv" "0xo" (Hx.lit "0xe") false)) 5 "0xf" "0xl" none none)
      (some "0x608060") = Except.ok (Hx.lit "0x")
    ∧ getInitCode (KernelAccountOptions.mk
        (some (KernelPlugin.mk "0xv" "0xo" (Hx.lit "0xe") false)) 5 "0xf" "0xl" none none)
      (some "0x") = generateInitCode (KernelAccountOptions.mk
        (some (KernelPlugin.mk "0xv" "0xo" (Hx.lit "0xe") false)) 5 "0xf" "0xl" none none) :=
  ⟨(getInitCode_spec _ (some "0x608060")).1 "0x608060" rfl (by decide),
   (getInitCode_spec _ (some "0x")).2.1 (Or.inr rfl)⟩

end Kernel
